import Mathlib

/-!
Verification of the kronofoto photo archive core: the search expression
tree, its classification and simplification, the collection query
dispatch, the cache encoding, and the result ordering / positioning
logic (`photo_position`, `page_number`, `year_index`, `year_links`).

Database rows are embedded as Lean structures and querysets as lists.
SQL `NULL` year values are `Option.none`; SQL three-valued comparison
against `NULL` is never true, which the embedding mirrors explicitly.
-/

namespace Kronofoto

/-- A photo record, embedding the fields of `archive.models.Photo` that the
verified core reads: primary key, nullable year, publication flag, and the
searchable text fields. -/
structure Photo where
  id : Nat
  year : Option Int
  is_published : Bool
  caption : String
  city : String
  county : String
  state : String
  country : String
  donorName : String
  donorId : Option Nat
  termIds : List Nat
  termNames : List String
  tagNames : List String
  deriving DecidableEq, Repr

/-- The acting-user context consulted by the evaluator (identity plus the
can-view-unpublished permission flag). -/
structure User where
  id : Nat
  canViewUnpublished : Bool
  deriving DecidableEq, Repr

/-- SQL-style `<` on nullable integers: any comparison involving `NULL`
is not true.  Embeds `Q(year__lt=...)`. -/
def ltNull : Option Int → Option Int → Bool
  | some a, some b => a < b
  | _, _ => false

/-- SQL-style `=` on nullable integers: any comparison involving `NULL`
is not true.  Embeds `Q(year=...)`. -/
def eqNull : Option Int → Option Int → Bool
  | some a, some b => a == b
  | _, _ => false

/-- `PhotoQuerySet.photo_position` (models.py:190-191): count of rows
matching `Q(year__lt=photo.year) | (Q(year=photo.year) & Q(id__lt=photo.id))`. -/
def photo_position (qs : List Photo) (photo : Photo) : Nat :=
  (qs.filter (fun q =>
    ltNull q.year photo.year || (eqNull q.year photo.year && q.id < photo.id))).length

/-- Runtime attribute state of a `Photo` instance as seen by
`Photo.page_number`: an optionally attached paginator page (its `.number`)
and an optionally stored `row_number` attribute. -/
structure PhotoState where
  photo : Photo
  page : Option Nat
  row_number : Option Nat
  deriving DecidableEq, Repr

/-- `Photo.page_number` (models.py:296-303).  Returns the computed page
(`none` embeds the raised `AttributeError`) together with the updated
attribute state.  The source's `if queryset:` is Python truthiness: it is
false both for `None` and for an *empty* queryset, so `row_number` is only
(re)computed from a non-empty queryset argument. -/
def page_number (self : PhotoState) (queryset : Option (List Photo)) :
    Option Nat × PhotoState :=
  match self.page with
  | some n => (some n, self)
  | none =>
    let self :=
      match queryset with
      | some qs => if qs.isEmpty then self
          else { self with row_number := some (photo_position qs self.photo) }
      | none => self
    match self.row_number with
    | some rn => (some (rn / 10 + 1), self)
    | none => (none, self)

/-- The strict `(year, id)` order used by the spec's description of
`photo_position`: a photo with a smaller year, or the same year and a
smaller id, comes strictly before.  Stated over the non-null years of the
filtered/ordered view. -/
def orderedBefore (q p : Photo) : Bool :=
  match q.year, p.year with
  | some yq, some yp => yq < yp || (yq == yp && q.id < p.id)
  | _, _ => false

/-- Modelled from the spec: the compiled search query representation of
`archive.search.expression` (the module itself is not among the provided
sources; its constructors, classification and semantics follow §3, §4.2
and §4.3 of the spec and the expression tests).  Leaf predicates wrap one
scalar each; `And`/`Or`/`Not`/`Maximum` are the combinators; the
`TermExactly`/`DonorExactly`/`TagExactly` leaves are the exact-identity
leaves used by the search form. -/
inductive Expression where
  | Caption (v : String)
  | Tag (v : String)
  | Term (v : String)
  | Donor (v : String)
  | City (v : String)
  | County (v : String)
  | State (v : String)
  | Country (v : String)
  | YearEquals (v : Int)
  | YearLTE (v : Int)
  | YearGTE (v : Int)
  | TermExactly (termId : Nat)
  | DonorExactly (donorId : Nat)
  | TagExactly (v : String)
  | And (l r : Expression)
  | Or (l r : Expression)
  | Not (e : Expression)
  | Maximum (l r : Expression)
  deriving DecidableEq, Repr

namespace Expression

/-- Modelled from the spec (§4.3, confirmed by `ExpressionTest` in
archive/tests.py): `is_collection` is true for every leaf predicate, true
for `And`/`Maximum` exactly when both children are collections, and false
for `Or` and `Not` always. -/
def is_collection : Expression → Bool
  | .And l r => is_collection l && is_collection r
  | .Maximum l r => is_collection l && is_collection r
  | .Or _ _ => false
  | .Not _ => false
  | _ => true

end Expression

/-- Lower-case a string, character by character (case-insensitive field
matching per spec §3). -/
def lowerStr (s : String) : String := String.mk (s.toList.map Char.toLower)

/-- Whether `needle` occurs as a contiguous run inside `hay`. -/
def infixCheck (needle : List Char) : List Char → Bool
  | [] => needle.isEmpty
  | c :: rest => needle.isPrefixOf (c :: rest) || infixCheck needle rest

/-- Case-insensitive containment test (for `Caption` and the location
fields, which match by containment per spec §3). -/
def containsCI (hay needle : String) : Bool :=
  infixCheck (lowerStr needle).toList (lowerStr hay).toList

/-- Case-insensitive equality test (for the remaining string fields). -/
def eqCI (a b : String) : Bool := lowerStr a == lowerStr b

/-- Visibility rule from spec §4.3: unpublished photos are excluded unless
the acting user context permits viewing them. -/
def visible (u : User) (p : Photo) : Bool := p.is_published || u.canViewUnpublished

namespace Expression

/-- Modelled from the spec: whether one photo satisfies an expression,
with leaf semantics from §3 (equality, or containment for `Caption` and
location fields, case-insensitively) and boolean combinator semantics.
In this pointwise boolean context `Maximum` behaves like its left-or-right
match; its set-level prefer-left semantics lives in `as_search`. -/
def matchesPhoto : Expression → Photo → Bool
  | .Caption v, p => containsCI p.caption v
  | .Tag v, p => p.tagNames.any (fun t => eqCI t v)
  | .Term v, p => p.termNames.any (fun t => eqCI t v)
  | .Donor v, p => eqCI p.donorName v
  | .City v, p => containsCI p.city v
  | .County v, p => containsCI p.county v
  | .State v, p => containsCI p.state v
  | .Country v, p => containsCI p.country v
  | .YearEquals n, p => p.year == some n
  | .YearLTE n, p => match p.year with | some y => y ≤ n | none => false
  | .YearGTE n, p => match p.year with | some y => n ≤ y | none => false
  | .TermExactly i, p => p.termIds.contains i
  | .DonorExactly i, p => p.donorId == some i
  | .TagExactly v, p => p.tagNames.any (fun t => eqCI t v)
  | .And l r, p => matchesPhoto l p && matchesPhoto r p
  | .Or l r, p => matchesPhoto l p || matchesPhoto r p
  | .Not e, p => !(matchesPhoto e p)
  | .Maximum l r, p => matchesPhoto l p || matchesPhoto r p

/-- Modelled from the spec (§4.3 `as_search`): the filtered catalog view
honoring general search semantics and the acting user's visibility; a
top-level `Maximum` prefers its left side's matches and falls back to the
right side only when the left result is empty (§3, glossary). -/
def as_search (e : Expression) (qs : List Photo) (u : User) : List Photo :=
  match e with
  | .Maximum l r =>
    let ls := as_search l qs u
    if ls.isEmpty then as_search r qs u else ls
  | e => qs.filter (fun p => visible u p && matchesPhoto e p)

/-- Modelled from the spec (§4.3 `as_collection`): the exact filtered
catalog view for a collection expression. -/
def as_collection (e : Expression) (qs : List Photo) (u : User) : List Photo :=
  qs.filter (fun p => visible u p && matchesPhoto e p)

/-- Modelled from the spec (§4.2 `shakeout`): the post-parse
tree-simplification pass collapsing no-op nodes — a binary combinator
whose two simplified children coincide is a no-op duplication and
collapses to the single child; all other structure is rebuilt from the
simplified children. -/
def shakeout : Expression → Expression
  | .And l r =>
    if shakeout l = shakeout r then shakeout l
    else .And (shakeout l) (shakeout r)
  | .Or l r =>
    if shakeout l = shakeout r then shakeout l
    else .Or (shakeout l) (shakeout r)
  | .Maximum l r =>
    if shakeout l = shakeout r then shakeout l
    else .Maximum (shakeout l) (shakeout r)
  | .Not e => .Not (shakeout e)
  | e => e

end Expression

/-- Escape a character for the canonical quoted-string form. -/
def escChar : Char → List Char
  | '\\' => ['\\', '\\']
  | '\"' => ['\\', '\"']
  | c => [c]

/-- Canonical quoted form of a scalar string value. -/
def quoteStr (s : String) : String :=
  "\"" ++ String.mk (s.toList.flatMap escChar) ++ "\""

/-- Modelled from the spec (§3/§4.3): the deterministic canonical
representation of an expression (the `repr` the source hashes), a
constructor-name-and-arguments rendering with deterministic field order. -/
def exprRepr : Expression → String
  | .Caption v => "Caption(" ++ quoteStr v ++ ")"
  | .Tag v => "Tag(" ++ quoteStr v ++ ")"
  | .Term v => "Term(" ++ quoteStr v ++ ")"
  | .Donor v => "Donor(" ++ quoteStr v ++ ")"
  | .City v => "City(" ++ quoteStr v ++ ")"
  | .County v => "County(" ++ quoteStr v ++ ")"
  | .State v => "State(" ++ quoteStr v ++ ")"
  | .Country v => "Country(" ++ quoteStr v ++ ")"
  | .YearEquals n => "YearEquals(" ++ toString n ++ ")"
  | .YearLTE n => "YearLTE(" ++ toString n ++ ")"
  | .YearGTE n => "YearGTE(" ++ toString n ++ ")"
  | .TermExactly i => "TermExactly(" ++ toString i ++ ")"
  | .DonorExactly i => "DonorExactly(" ++ toString i ++ ")"
  | .TagExactly v => "TagExactly(" ++ quoteStr v ++ ")"
  | .And l r => "And(" ++ exprRepr l ++ ", " ++ exprRepr r ++ ")"
  | .Or l r => "Or(" ++ exprRepr l ++ ", " ++ exprRepr r ++ ")"
  | .Not e => "Not(" ++ exprRepr e ++ ")"
  | .Maximum l r => "Maximum(" ++ exprRepr l ++ ", " ++ exprRepr r ++ ")"

/-- UTF-8 encoding of one character as byte values (the source hashes
`s.encode('utf-8')`). -/
def utf8Bytes (c : Char) : List Nat :=
  let n := c.toNat
  if n < 0x80 then [n]
  else if n < 0x800 then [0xc0 + n / 64, 0x80 + n % 64]
  else if n < 0x10000 then [0xe0 + n / 4096, 0x80 + n / 64 % 64, 0x80 + n % 64]
  else [0xf0 + n / 262144, 0x80 + n / 4096 % 64, 0x80 + n / 64 % 64, 0x80 + n % 64]

/-- UTF-8 byte sequence of a string. -/
def strBytes (s : String) : List Nat := s.toList.flatMap utf8Bytes

/-- Reduce modulo 2^32 (32-bit machine arithmetic). -/
def m32 (x : Nat) : Nat := x % 4294967296

/-- 32-bit left rotation of a value below 2^32. -/
def rotl32 (x s : Nat) : Nat := (m32 (x <<< s)) ||| (x >>> (32 - s))

/-- 32-bit bitwise complement of a value below 2^32. -/
def notW (x : Nat) : Nat := 4294967295 ^^^ x

/-- The 64 MD5 round constants (RFC 1321, `hashlib.md5`). -/
def md5K : List Nat := [
  0xd76aa478, 0xe8c7b756, 0x242070db, 0xc1bdceee,
  0xf57c0faf, 0x4787c62a, 0xa8304613, 0xfd469501,
  0x698098d8, 0x8b44f7af, 0xffff5bb1, 0x895cd7be,
  0x6b901122, 0xfd987193, 0xa679438e, 0x49b40821,
  0xf61e2562, 0xc040b340, 0x265e5a51, 0xe9b6c7aa,
  0xd62f105d, 0x02441453, 0xd8a1e681, 0xe7d3fbc8,
  0x21e1cde6, 0xc33707d6, 0xf4d50d87, 0x455a14ed,
  0xa9e3e905, 0xfcefa3f8, 0x676f02d9, 0x8d2a4c8a,
  0xfffa3942, 0x8771f681, 0x6d9d6122, 0xfde5380c,
  0xa4beea44, 0x4bdecfa9, 0xf6bb4b60, 0xbebfbc70,
  0x289b7ec6, 0xeaa127fa, 0xd4ef3085, 0x04881d05,
  0xd9d4d039, 0xe6db99e5, 0x1fa27cf8, 0xc4ac5665,
  0xf4292244, 0x432aff97, 0xab9423a7, 0xfc93a039,
  0x655b59c3, 0x8f0ccc92, 0xffeff47d, 0x85845dd1,
  0x6fa87e4f, 0xfe2ce6e0, 0xa3014314, 0x4e0811a1,
  0xf7537e82, 0xbd3af235, 0x2ad7d2bb, 0xeb86d391]

/-- The 64 MD5 per-round left-rotation amounts. -/
def md5S : List Nat := [
  7, 12, 17, 22, 7, 12, 17, 22, 7, 12, 17, 22, 7, 12, 17, 22,
  5, 9, 14, 20, 5, 9, 14, 20, 5, 9, 14, 20, 5, 9, 14, 20,
  4, 11, 16, 23, 4, 11, 16, 23, 4, 11, 16, 23, 4, 11, 16, 23,
  6, 10, 15, 21, 6, 10, 15, 21, 6, 10, 15, 21, 6, 10, 15, 21]

/-- MD5 round mixing function for round `i`. -/
def md5F (i b c d : Nat) : Nat :=
  if i < 16 then (b &&& c) ||| (notW b &&& d)
  else if i < 32 then (d &&& b) ||| (notW d &&& c)
  else if i < 48 then b ^^^ c ^^^ d
  else c ^^^ (b ||| notW d)

/-- MD5 message-word index for round `i`. -/
def md5G (i : Nat) : Nat :=
  if i < 16 then i
  else if i < 32 then (5 * i + 1) % 16
  else if i < 48 then (3 * i + 5) % 16
  else (7 * i) % 16

/-- One MD5 round: rotate the state, mixing in message word `M[g i]`. -/
def md5Round (M : List Nat) (st : Nat × Nat × Nat × Nat) (i : Nat) :
    Nat × Nat × Nat × Nat :=
  let (a, b, c, d) := st
  let f := m32 (md5F i b c d + a + md5K.getD i 0 + M.getD (md5G i) 0)
  (d, m32 (b + rotl32 f (md5S.getD i 0)), b, c)

/-- Process one 16-word chunk, adding the mixed state back in mod 2^32. -/
def md5Chunk (st : Nat × Nat × Nat × Nat) (M : List Nat) :
    Nat × Nat × Nat × Nat :=
  let (a, b, c, d) := (List.range 64).foldl (md5Round M) st
  (m32 (st.1 + a), m32 (st.2.1 + b), m32 (st.2.2.1 + c), m32 (st.2.2.2 + d))

/-- MD5 padding: append `0x80`, zero bytes up to 56 mod 64, then the
original bit length as 8 little-endian bytes. -/
def md5Pad (msg : List Nat) : List Nat :=
  let len := msg.length
  let z := (120 - (len + 1) % 64) % 64
  msg ++ [0x80] ++ List.replicate z 0 ++
    (List.range 8).map (fun j => ((8 * len) >>> (8 * j)) % 256)

/-- Assemble bytes into 32-bit little-endian words. -/
def toWords : List Nat → List Nat
  | b0 :: b1 :: b2 :: b3 :: rest =>
    (b0 + 256 * b1 + 65536 * b2 + 16777216 * b3) :: toWords rest
  | _ => []

/-- Split a word list into 16-word chunks (fuelled). -/
def splitChunks : Nat → List Nat → List (List Nat)
  | 0, _ => []
  | _, [] => []
  | fuel + 1, ws => ws.take 16 :: splitChunks fuel (ws.drop 16)

/-- The four 32-bit MD5 state words of a string's digest. -/
def md5Words (s : String) : Nat × Nat × Nat × Nat :=
  let ws := toWords (md5Pad (strBytes s))
  (splitChunks ws.length ws).foldl md5Chunk
    (0x67452301, 0xefcdab89, 0x98badcfe, 0x10325476)

/-- Lower-case hexadecimal digit for a nibble. -/
def hexDigit (n : Nat) : Char :=
  if n < 10 then Char.ofNat (48 + n) else Char.ofNat (87 + n)

/-- Hex rendering of one state word as four little-endian bytes. -/
def wordHexLE (w : Nat) : List Char :=
  (List.range 4).flatMap (fun j =>
    let b := (w >>> (8 * j)) % 256
    [hexDigit (b / 16), hexDigit (b % 16)])

/-- `hashlib.md5(...).hexdigest()` of a string's UTF-8 bytes. -/
def md5hex (s : String) : String :=
  let (a, b, c, d) := md5Words s
  String.mk (wordHexLE a ++ wordHexLE b ++ wordHexLE c ++ wordHexLE d)

/-- `CollectionQuery` (models.py:211-235): an optional expression plus the
acting-user context. -/
structure CollectionQuery where
  expr : Option Expression
  user : User
  deriving DecidableEq

/-- `CollectionQuery.filter` (models.py:216-222): with no expression,
restrict to published photos with a non-null year; otherwise dispatch to
`as_collection` exactly when the expression is a collection and to
`as_search` otherwise. -/
def CollectionQuery.filter (self : CollectionQuery) (qs : List Photo) : List Photo :=
  match self.expr with
  | none => qs.filter (fun p => p.year.isSome && p.is_published)
  | some e =>
    if e.is_collection then e.as_collection qs self.user
    else e.as_search qs self.user

/-- `PhotoQuerySet.filter_photos` (models.py:193-194): pre-restrict to
published, non-null-year photos and then apply the collection query. -/
def filter_photos (qs : List Photo) (collection : CollectionQuery) : List Photo :=
  collection.filter (qs.filter (fun p => p.year.isSome && p.is_published))

/-- `CollectionQuery.make_key` (models.py:224-227): the md5 hexdigest of
the UTF-8 encoding of a string. -/
def CollectionQuery.make_key (_self : CollectionQuery) (s : String) : String :=
  md5hex s

/-- The canonical representation of the optional expression held by a
`CollectionQuery` (`repr(self.expr)`; Python renders the absent
expression as `None`). -/
def optExprRepr : Option Expression → String
  | none => "None"
  | some e => exprRepr e

/-- `CollectionQuery.cache_encoding` (models.py:229-230):
`make_key(repr(self.expr))`. -/
def CollectionQuery.cache_encoding (self : CollectionQuery) : String :=
  self.make_key (optExprRepr self.expr)

/-- Modelled from the spec (§3 Token, §4.1): the token stream the
tokenizer hands to the parser.  As the parser tests in archive/tests.py
show, `field:value` pairs and bare words arrive already expanded into
expression leaves, while operators, negation and parentheses stay
symbolic. -/
inductive Token where
  | texpr (e : Expression)
  | tAnd
  | tOr
  | tPipe
  | tLParen
  | tRParen
  | tNeg
  deriving DecidableEq, Repr

/-- Split raw query characters into words, treating whitespace as a
separator and `(`, `)`, `|`, `-` as standalone single-character words
regardless of adjacent whitespace (spec §4.1).  `acc` holds the current
word, reversed. -/
def splitWords : List Char → List Char → List (List Char)
  | [], acc => if acc.isEmpty then [] else [acc.reverse]
  | c :: cs, acc =>
    if c.isWhitespace then
      (if acc.isEmpty then [] else [acc.reverse]) ++ splitWords cs []
    else if c = '(' || c = ')' || c = '|' || c = '-' then
      (if acc.isEmpty then [] else [acc.reverse]) ++ [[c]] ++ splitWords cs []
    else splitWords cs (c :: acc)

/-- The fixed recognized field-keyword table (spec §4.1, §9): field
keyword to leaf constructor, for the string-valued fields. -/
def fieldCtor : String → Option (String → Expression)
  | "caption" => some .Caption
  | "tag" => some .Tag
  | "term" => some .Term
  | "donor" => some .Donor
  | "city" => some .City
  | "county" => some .County
  | "state" => some .State
  | "country" => some .Country
  | _ => none

/-- Decimal value of an all-digit character run. -/
def digitsToNat (cs : List Char) : Nat :=
  cs.foldl (fun n c => 10 * n + (c.toNat - 48)) 0

/-- Whether a word is a non-empty run of decimal digits. -/
def isNumericWord (cs : List Char) : Bool := !cs.isEmpty && cs.all Char.isDigit

/-- The implicit full-text `Or` chain a bare untyped word expands to, in
the fixed field priority order of spec §4.2 (confirmed by `ParserTest`). -/
def orChain (w : String) : Expression :=
  .Or (.Donor w) (.Or (.Caption w) (.Or (.State w) (.Or (.Country w)
    (.Or (.County w) (.Or (.City w) (.Or (.Tag w) (.Term w)))))))

/-- Expansion of a bare word: a numeric word prepends `YearEquals` ahead
of the full-text chain (spec §4.2). -/
def bareWordExpr (cs : List Char) : Expression :=
  if isNumericWord cs then
    .Or (.YearEquals (digitsToNat cs)) (orChain (String.mk cs))
  else orChain (String.mk cs)

/-- Split a word at its first `:`, when present. -/
def splitColon : List Char → Option (List Char × List Char)
  | [] => none
  | c :: cs =>
    if c = ':' then some ([], cs)
    else (splitColon cs).map (fun pr => (c :: pr.1, pr.2))

/-- Classify one word as a token.  A recognized `field:value` word
becomes a typed leaf; `year:` takes a numeric value; an unrecognized
prefix degrades gracefully to bare-word treatment of the whole word
(spec §4.1, §9). -/
def rawToToken (w : List Char) : Token :=
  if w = ['('] then .tLParen
  else if w = [')'] then .tRParen
  else if w = ['|'] then .tPipe
  else if w = ['-'] then .tNeg
  else if String.mk w = "AND" then .tAnd
  else if String.mk w = "OR" then .tOr
  else
    match splitColon w with
    | some (pre, post) =>
      if String.mk pre = "year" then
        if isNumericWord post then .texpr (.YearEquals (digitsToNat post))
        else .texpr (bareWordExpr w)
      else
        match fieldCtor (String.mk pre) with
        | some ctor => .texpr (ctor (String.mk post))
        | none => .texpr (bareWordExpr w)
    | none => .texpr (bareWordExpr w)

/-- The token sequence of a raw query string. -/
def tokenizeStr (s : String) : List Token :=
  (splitWords s.toList []).map rawToToken

/-- Decidable equality for `Except` results, used to state parser
outcomes decidably. -/
instance {ε α : Type} [DecidableEq ε] [DecidableEq α] :
    DecidableEq (Except ε α) := fun
  | .ok a, .ok b =>
    if h : a = b then .isTrue (by rw [h])
    else .isFalse (fun hh => by cases hh; exact h rfl)
  | .ok _, .error _ => .isFalse (fun hh => by cases hh)
  | .error _, .ok _ => .isFalse (fun hh => by cases hh)
  | .error a, .error b =>
    if h : a = b then .isTrue (by rw [h])
    else .isFalse (fun hh => by cases hh; exact h rfl)

/-- Modelled from the spec (§4.2): the parser's failure outcomes.
`UnexpectedParenthesis` carries the offending token index. -/
inductive ParseErr where
  | NoExpression
  | UnexpectedParenthesis (index : Nat)
  | ExpectedParenthesis
  deriving DecidableEq, Repr

/-- `Parser.tokenize` builds a parser over a raw string; the object keeps
both the raw text (for `simple_parse`) and the token sequence. -/
structure Parser where
  raw : String
  tokens : List Token
  deriving DecidableEq

/-- Intermediate parse result: value, remaining tokens, next token index. -/
abbrev PRes := Except ParseErr (Expression × List Token × Nat)

mutual

/-- Modelled from the spec (§4.2 precedence): topmost level — `|`
(Maximum) binds loosest; each side is parsed as a normal boolean
expression, chaining to the right. -/
def parseMax (fuel : Nat) (ts : List Token) (i : Nat) : PRes :=
  match fuel with
  | 0 => .error .NoExpression
  | f + 1 =>
    match parseOr f ts i with
    | .error e => .error e
    | .ok (l, ts, i) =>
      match ts with
      | .tPipe :: rest =>
        match parseMax f rest (i + 1) with
        | .error e => .error e
        | .ok (r, ts, i) => .ok (.Maximum l r, ts, i)
      | _ => .ok (l, ts, i)

termination_by structural fuel

/-- `OR` level: left-associative chain of AND-expressions. -/
def parseOr (fuel : Nat) (ts : List Token) (i : Nat) : PRes :=
  match fuel with
  | 0 => .error .NoExpression
  | f + 1 =>
    match parseAnd f ts i with
    | .error e => .error e
    | .ok (l, ts, i) => parseOrLoop f l ts i

termination_by structural fuel

/-- Left fold of further `OR` operands onto `acc`. -/
def parseOrLoop (fuel : Nat) (acc : Expression) (ts : List Token) (i : Nat) : PRes :=
  match fuel, ts with
  | 0, _ => .error .NoExpression
  | f + 1, .tOr :: rest =>
    match parseAnd f rest (i + 1) with
    | .error e => .error e
    | .ok (r, ts, i) => parseOrLoop f (.Or acc r) ts i
  | _, _ => .ok (acc, ts, i)

termination_by structural fuel

/-- `AND` level: explicit `AND` and implicit adjacency bind equally and
tightest among the binary operators, left-associatively. -/
def parseAnd (fuel : Nat) (ts : List Token) (i : Nat) : PRes :=
  match fuel with
  | 0 => .error .NoExpression
  | f + 1 =>
    match parseUnary f ts i with
    | .error e => .error e
    | .ok (l, ts, i) => parseAndLoop f l ts i

termination_by structural fuel

/-- Left fold of further operands at the `AND` level onto `acc`.  An
explicit `AND` keyword folds with `And`; a following term, negation or
group with no operator in between (implicit adjacency) folds with `Or`,
as the in-source parenthesis test pins down
(`parse("(caption:cat caption:banana)")` equals
`Or(Caption("cat"), Caption("banana"))`, archive/tests.py:770-773). -/
def parseAndLoop (fuel : Nat) (acc : Expression) (ts : List Token) (i : Nat) : PRes :=
  match fuel, ts with
  | 0, _ => .error .NoExpression
  | f + 1, .tAnd :: rest =>
    match parseUnary f rest (i + 1) with
    | .error e => .error e
    | .ok (r, ts, i) => parseAndLoop f (.And acc r) ts i
  | f + 1, .texpr e :: rest =>
    parseAndLoop f (.Or acc e) rest (i + 1)
  | f + 1, .tNeg :: _ =>
    match parseUnary f ts i with
    | .error e => .error e
    | .ok (r, ts, i) => parseAndLoop f (.Or acc r) ts i
  | f + 1, .tLParen :: _ =>
    match parseUnary f ts i with
    | .error e => .error e
    | .ok (r, ts, i) => parseAndLoop f (.Or acc r) ts i
  | _, _ => .ok (acc, ts, i)

termination_by structural fuel

/-- Unary level: `-` binds tighter than any binary operator and applies
to the immediately following term or parenthesized group. -/
def parseUnary (fuel : Nat) (ts : List Token) (i : Nat) : PRes :=
  match fuel with
  | 0 => .error .NoExpression
  | f + 1 =>
    match ts with
    | .tNeg :: rest =>
      match parsePrimary f rest (i + 1) with
      | .error e => .error e
      | .ok (e, ts, i) => .ok (.Not e, ts, i)
    | _ => parsePrimary f ts i

termination_by structural fuel

/-- Primary level: a leaf token or a parenthesized group.  End of input
(including a lone dangling negation) is `NoExpression`; a stray `)` is
`UnexpectedParenthesis` at its token index; an unclosed group is
`ExpectedParenthesis`. -/
def parsePrimary (fuel : Nat) (ts : List Token) (i : Nat) : PRes :=
  match fuel with
  | 0 => .error .NoExpression
  | f + 1 =>
    match ts with
    | [] => .error .NoExpression
    | .texpr e :: rest => .ok (e, rest, i + 1)
    | .tLParen :: rest =>
      match parseMax f rest (i + 1) with
      | .error e => .error e
      | .ok (e, ts2, i2) =>
        match ts2 with
        | .tRParen :: rest2 => .ok (e, rest2, i2 + 1)
        | _ => .error .ExpectedParenthesis
    | .tRParen :: _ => .error (.UnexpectedParenthesis i)
    | _ :: _ => .error .NoExpression
termination_by structural fuel


end

/-- `Parser.parse`: parse the full token sequence to exactly one
expression; leftover input (a stray `)`) is `UnexpectedParenthesis` at
that token's index. -/
def Parser.parse (p : Parser) : Except ParseErr Expression :=
  match parseMax (5 * p.tokens.length + 5) p.tokens 0 with
  | .error e => .error e
  | .ok (e, [], _) => .ok e
  | .ok (_, _ :: _, i) => .error (.UnexpectedParenthesis i)

/-- Modelled from the spec (§4.2): `simple_parse`, the fallback mode that
treats the entire input as a single free-text OR-expression across all
fields, failing only with `NoExpression` when the token sequence is
empty. -/
def Parser.simple_parse (p : Parser) : Except ParseErr Expression :=
  if p.tokens.isEmpty then .error .NoExpression
  else .ok (bareWordExpr p.raw.trim.toList)

/-- `Parser.tokenize` (the parser entry point used by the search form). -/
def Parser.tokenize (s : String) : Parser := ⟨s, tokenizeStr s⟩

/-- The query-string part of `SearchForm.as_expression` (forms.py:28-37):
try the full parse, drop the query on `NoExpression`, and on any other
failure fall back to `simple_parse`; each successful parse is passed
through `shakeout`. -/
def queryExpression (query : String) : Option Expression :=
  match (Parser.tokenize query).parse with
  | .ok e => some e.shakeout
  | .error .NoExpression => none
  | .error _ =>
    match (Parser.tokenize query).simple_parse with
    | .ok e => some e.shakeout
    | .error _ => none

/-- The cleaned form data of `SearchForm` (forms.py:14-23): the raw query
plus the optional structured filters.  `term`/`donor` are model choices
embedded by id; the choice fields clean to `""` when unset. -/
structure SearchFormData where
  query : String
  term : Option Nat
  startYear : Option Int
  endYear : Option Int
  donor : Option Nat
  city : String
  county : String
  state : String
  country : String
  deriving DecidableEq

/-- `SearchForm.as_expression` (forms.py:25-56): collect the parsed query
expression and the structured filters in source order and fold them
together with `Or` (`reduce(expression.Or, form_exprs)`); the two year
bounds are first folded with `And`.  `none` embeds the raised
`NoExpression`.  Python truth tests govern inclusion: `None` and the
integer `0` are falsy for the year fields, and the empty string is falsy
for the choice fields.  The source never reads `cleaned_data['county']`
here, so the embedded definition has no county case either. -/
def SearchForm.as_expression (fd : SearchFormData) : Option Expression :=
  let form_exprs : List Expression :=
    (match queryExpression fd.query with | some e => [e] | none => []) ++
    (match fd.term with | some t => [.TermExactly t] | none => []) ++
    (let year_exprs : List Expression :=
      (match fd.startYear with
        | some y => if y ≠ 0 then [.YearGTE y] else []
        | none => []) ++
      (match fd.endYear with
        | some y => if y ≠ 0 then [.YearLTE y] else []
        | none => [])
     match year_exprs with
     | [] => []
     | h :: t => [t.foldl .And h]) ++
    (match fd.donor with | some d => [.DonorExactly d] | none => []) ++
    (if fd.city ≠ "" then [.City fd.city] else []) ++
    (if fd.state ≠ "" then [.State fd.state] else []) ++
    (if fd.country ≠ "" then [.Country fd.country] else [])
  match form_exprs with
  | [] => none
  | h :: t => some (t.foldl .Or h)

/-- The non-null year values of a photo list (SQL aggregates and grouping
skip `NULL`s; the ordered view excludes them via `filter_photos`). -/
def yearValues (ps : List Photo) : List Int := ps.filterMap (·.year)

/-- The distinct years present, in ascending order (the `values('year')`
grouping of `year_index`, ordered by year). -/
def yearsSorted (ps : List Photo) : List Int :=
  List.insertionSort (· ≤ ·) (yearValues ps).dedup

/-- The photos of one year (`set.filter(year=...)`). -/
def photosOfYear (ps : List Photo) (y : Int) : List Photo :=
  ps.filter (fun p => p.year == some y)

/-- The photo with the smallest id among `p :: rest`. -/
def minIdPhoto : Photo → List Photo → Photo
  | p, [] => p
  | p, q :: rest => minIdPhoto (if q.id < p.id then q else p) rest

/-- The representative photo of a year: the photo with minimal id among
the photos of that year (`annotate(min_id=Min('id'))` in `year_index`). -/
def minIdForYear (ps : List Photo) (y : Int) : Option Photo :=
  match photosOfYear ps y with
  | [] => none
  | h :: t => some (minIdPhoto h t)

/-- `PhotoQuerySet.year_index` (models.py:171-185): one representative
photo per distinct year present (the row of minimal id), ordered by year.
The source also annotates each representative with a `row_number` window
aggregate; no claim here depends on that annotation, so only the
representative selection is embedded. -/
def year_index (ps : List Photo) : List Photo :=
  (yearsSorted ps).filterMap (minIdForYear ps)

/-- `bisect.bisect_left` on the sorted year list: the leftmost insertion
index, i.e. the length of the prefix of elements `< x` (this equals
CPython's `bisect_left` on every sorted list, the only lists it is
applied to here). -/
def bisect_left (xs : List Int) (x : Int) : Nat :=
  (xs.takeWhile (fun v => decide (v < x))).length

/-- The clamped lookup `bisect = lambda xs, x: min(bisect_left(xs, x),
len(xs)-1)` (models.py:158). -/
def bisect (xs : List Int) (x : Int) : Nat :=
  min (bisect_left xs x) (xs.length - 1)

/-- `Min('year')` of `PhotoQuerySet.year_range` (models.py:187-188). -/
def year_rangeStart (ps : List Photo) : Option Int :=
  match yearValues ps with
  | [] => none
  | h :: t => some (t.foldl min h)

/-- `Max('year')` of `PhotoQuerySet.year_range` (models.py:187-188). -/
def year_rangeEnd (ps : List Photo) : Option Int :=
  match yearValues ps with
  | [] => none
  | h :: t => some (t.foldl max h)

/-- `range(start, end + 1)`: the integers from `s` to `e` inclusive. -/
def intRange (s e : Int) : List Int :=
  (List.range (e + 1 - s).toNat).map (fun k => s + k)

/-- `PhotoQuerySet.year_links` (models.py:161-169): pair every integer
year of the full observed range (`Photo.objects.year_range()`, taken over
the whole photo table `allPhotos`) with the representative photo at index
`bisect(years, year)` of this queryset's `year_index`.  The source then
renders each chosen photo's URLs; the URL formatting is external, so the
pairing carries the chosen photo itself (`none` embeds an out-of-bounds
index, which Python would raise on). -/
def year_links (self : List Photo) (allPhotos : List Photo) :
    List (Int × Option Photo) :=
  let yi := year_index self
  let years := yi.filterMap (·.year)
  match year_rangeStart allPhotos, year_rangeEnd allPhotos with
  | some s, some e => (intRange s e).map (fun y => (y, yi[bisect years y]?))
  | _, _ => []

/-- A minimal published photo with the given id and year, for concrete
instantiations. -/
def mkSimplePhoto (id : Nat) (y : Int) : Photo :=
  ⟨id, some y, true, "", "", "", "", "", "", none, [], [], []⟩

/-- Two photos in years 1900 and 1905: the year range then contains the
gap years 1901-1904 with zero photos. -/
def twoYearPhotos : List Photo := [mkSimplePhoto 1 1900, mkSimplePhoto 2 1905]

/-- An anonymous acting user. -/
def anonUser : User := ⟨0, false⟩

/-- A form submission supplying only the county structured filter. -/
def countyOnlyForm : SearchFormData :=
  ⟨"", none, none, none, none, "", "Black Hawk", "", ""⟩

/-! Theorems. -/

theorem filter_pred_eq_orderedBefore (p q : Photo) :
    (ltNull q.year p.year || (eqNull q.year p.year && decide (q.id < p.id)))
      = orderedBefore q p := by
  cases hq : q.year <;> cases hp : p.year <;>
    simp [ltNull, eqNull, orderedBefore, hq, hp]

/-- C1: for every filtered photo set and every photo in it,
`photo_position` returns the number of photos ordered strictly before it
by `(year, id)` — smaller year, or same year and smaller id — and
`page_number` computes the page from that position as
`position // 10 + 1` (page size fixed at 10). -/
theorem c1_photo_position_and_page_number :
    ∀ (qs : List Photo) (p : Photo), p ∈ qs → p.year.isSome →
      photo_position qs p = qs.countP (fun q => orderedBefore q p) ∧
      ∀ st : PhotoState, st.photo = p → st.page = none →
        (page_number st (some qs)).1 = some (photo_position qs p / 10 + 1) := by
  intro qs p hmem _hsome
  constructor
  · have hfun : (fun q => ltNull q.year p.year ||
        (eqNull q.year p.year && decide (q.id < p.id)))
        = (fun q => orderedBefore q p) :=
      funext (fun q => filter_pred_eq_orderedBefore p q)
    rw [photo_position, ← List.countP_eq_length_filter, hfun]
  · intro st hphoto hpage
    have hne : qs.isEmpty = false := by
      cases qs with
      | nil => cases hmem
      | cons a l => rfl
    simp [page_number, hpage, hne, hphoto]

/-- Witness for C1 at a concrete photo set and member. -/
theorem c1_witness :
    photo_position twoYearPhotos (mkSimplePhoto 2 1905) =
      twoYearPhotos.countP (fun q => orderedBefore q (mkSimplePhoto 2 1905)) ∧
    (page_number ⟨mkSimplePhoto 2 1905, none, none⟩ (some twoYearPhotos)).1 =
      some (photo_position twoYearPhotos (mkSimplePhoto 2 1905) / 10 + 1) := by
  have h := c1_photo_position_and_page_number twoYearPhotos (mkSimplePhoto 2 1905)
    (by decide) (by decide)
  exact ⟨h.1, h.2 ⟨mkSimplePhoto 2 1905, none, none⟩ rfl rfl⟩

/-- C3: `is_collection` is true for every leaf predicate; on `And` and
`Maximum` it is the conjunction of the children's classifications; on
`Or` and `Not` it is always false. -/
theorem c3_is_collection_clauses :
    (∀ v, (Expression.Caption v).is_collection = true) ∧
    (∀ v, (Expression.Tag v).is_collection = true) ∧
    (∀ v, (Expression.Term v).is_collection = true) ∧
    (∀ v, (Expression.Donor v).is_collection = true) ∧
    (∀ v, (Expression.City v).is_collection = true) ∧
    (∀ v, (Expression.County v).is_collection = true) ∧
    (∀ v, (Expression.State v).is_collection = true) ∧
    (∀ v, (Expression.Country v).is_collection = true) ∧
    (∀ n, (Expression.YearEquals n).is_collection = true) ∧
    (∀ n, (Expression.YearLTE n).is_collection = true) ∧
    (∀ n, (Expression.YearGTE n).is_collection = true) ∧
    (∀ i, (Expression.TermExactly i).is_collection = true) ∧
    (∀ i, (Expression.DonorExactly i).is_collection = true) ∧
    (∀ v, (Expression.TagExactly v).is_collection = true) ∧
    (∀ a b : Expression,
      (Expression.And a b).is_collection = (a.is_collection && b.is_collection)) ∧
    (∀ a b : Expression,
      (Expression.Maximum a b).is_collection = (a.is_collection && b.is_collection)) ∧
    (∀ a b : Expression, (Expression.Or a b).is_collection = false) ∧
    (∀ a : Expression, (Expression.Not a).is_collection = false) := by
  refine ⟨fun _ => rfl, fun _ => rfl, fun _ => rfl, fun _ => rfl, fun _ => rfl,
    fun _ => rfl, fun _ => rfl, fun _ => rfl, fun _ => rfl, fun _ => rfl,
    fun _ => rfl, fun _ => rfl, fun _ => rfl, fun _ => rfl,
    fun _ _ => rfl, fun _ _ => rfl, fun _ _ => rfl, fun _ => rfl⟩

/-- C4: the `|` (Maximum) operator binds loosest — the worked example
splits into two halves, each parsed as a boolean expression; and within a
half `OR` binds looser than `AND`. -/
theorem c4_maximum_binds_loosest :
    (Parser.tokenize "caption:bird OR caption:dog | caption:cat OR caption:banana").parse
      = .ok (.Maximum (.Or (.Caption "bird") (.Caption "dog"))
                      (.Or (.Caption "cat") (.Caption "banana"))) ∧
    (Parser.tokenize "caption:bird AND caption:dog OR caption:cat AND caption:banana").parse
      = .ok (.Or (.And (.Caption "bird") (.Caption "dog"))
                 (.And (.Caption "cat") (.Caption "banana"))) :=
  ⟨by decide, by decide⟩

/-- C9: the search form drops the county structured filter.  The output
of `as_expression` never depends on the county field, and a submission
supplying only a county yields no expression at all (`NoExpression`)
instead of an `Or` including a county term. -/
theorem c9_county_filter_ignored :
    SearchForm.as_expression countyOnlyForm = none ∧
    ∀ (fd : SearchFormData) (c : String),
      SearchForm.as_expression { fd with county := c } =
        SearchForm.as_expression fd :=
  ⟨by decide, fun _ _ => rfl⟩

/-- C10 counterexample: with no attached page, no stored row number, and
an *empty* queryset argument given, `page_number` neither computes nor
stores a row number — the source's `if queryset:` truth test fails on an
empty queryset — and raises `AttributeError` (embedded as `none`), while
the claim promises a computed position whenever a queryset is given. -/
theorem c10_counterexample :
    (page_number ⟨mkSimplePhoto 1 1900, none, none⟩ (some ([] : List Photo))).1
        = none ∧
    ((page_number ⟨mkSimplePhoto 1 1900, none, none⟩
        (some ([] : List Photo))).2).row_number = none := by
  decide

/-- C10 amended: `page_number` first returns an attached page's number;
otherwise a given *non-empty* queryset computes and stores `row_number`
via `photo_position`; a stored `row_number` yields `row_number // 10 + 1`;
and with no page, no non-empty queryset and no stored `row_number` it
raises `AttributeError` (embedded as `none`). -/
theorem c10_page_number_amended :
    ∀ (st : PhotoState) (q : Option (List Photo)),
      (∀ n, st.page = some n → page_number st q = (some n, st)) ∧
      (st.page = none → ∀ qs, q = some qs → qs ≠ [] →
        page_number st q =
          (some (photo_position qs st.photo / 10 + 1),
           { st with row_number := some (photo_position qs st.photo) })) ∧
      (st.page = none → st.row_number = none → (q = none ∨ q = some []) →
        (page_number st q).1 = none) ∧
      (st.page = none → ∀ rn, st.row_number = some rn → (q = none ∨ q = some []) →
        (page_number st q).1 = some (rn / 10 + 1)) := by
  intro st q
  refine ⟨?_, ?_, ?_, ?_⟩
  · intro n hpg
    simp [page_number, hpg]
  · intro hpg qs hq hne
    have hemp : qs.isEmpty = false := by
      cases qs with
      | nil => cases hne rfl
      | cons a l => rfl
    subst hq
    simp [page_number, hpg, hemp]
  · intro hpg hrn hq
    rcases hq with hq | hq <;> subst hq <;> simp [page_number, hpg, hrn]
  · intro hpg rn hrn hq
    rcases hq with hq | hq <;> subst hq <;> simp [page_number, hpg, hrn]

theorem shakeout_matchesPhoto (e : Expression) (p : Photo) :
    e.shakeout.matchesPhoto p = e.matchesPhoto p := by
  induction e with
  | And l r ihl ihr =>
    by_cases h : l.shakeout = r.shakeout
    · have hlr : l.matchesPhoto p = r.matchesPhoto p := by
        rw [← ihl, ← ihr, h]
      simp only [Expression.shakeout, if_pos h, Expression.matchesPhoto,
        ihl, ← hlr, Bool.and_self]
    · simp only [Expression.shakeout, if_neg h, Expression.matchesPhoto, ihl, ihr]
  | Or l r ihl ihr =>
    by_cases h : l.shakeout = r.shakeout
    · have hlr : l.matchesPhoto p = r.matchesPhoto p := by
        rw [← ihl, ← ihr, h]
      simp only [Expression.shakeout, if_pos h, Expression.matchesPhoto,
        ihl, ← hlr, Bool.or_self]
    · simp only [Expression.shakeout, if_neg h, Expression.matchesPhoto, ihl, ihr]
  | Maximum l r ihl ihr =>
    by_cases h : l.shakeout = r.shakeout
    · have hlr : l.matchesPhoto p = r.matchesPhoto p := by
        rw [← ihl, ← ihr, h]
      simp only [Expression.shakeout, if_pos h, Expression.matchesPhoto,
        ihl, ← hlr, Bool.or_self]
    · simp only [Expression.shakeout, if_neg h, Expression.matchesPhoto, ihl, ihr]
  | Not e ih => simp only [Expression.shakeout, Expression.matchesPhoto, ih]
  | _ => rfl

theorem shakeout_idempotent (e : Expression) :
    e.shakeout.shakeout = e.shakeout := by
  induction e with
  | And l r ihl ihr =>
    by_cases h : l.shakeout = r.shakeout
    · simp only [Expression.shakeout, if_pos h]
      exact ihl
    · simp only [Expression.shakeout, if_neg h, ihl, ihr]
  | Or l r ihl ihr =>
    by_cases h : l.shakeout = r.shakeout
    · simp only [Expression.shakeout, if_pos h]
      exact ihl
    · simp only [Expression.shakeout, if_neg h, ihl, ihr]
  | Maximum l r ihl ihr =>
    by_cases h : l.shakeout = r.shakeout
    · simp only [Expression.shakeout, if_pos h]
      exact ihl
    · simp only [Expression.shakeout, if_neg h, ihl, ihr]
  | Not e ih => simp only [Expression.shakeout, ih]
  | _ => rfl

/-- C7: `shakeout` is idempotent — applying it twice yields the same tree
as applying it once — and it does not change the set of photos an
expression matches. -/
theorem c7_shakeout_idempotent_and_semantics :
    (∀ e : Expression, e.shakeout.shakeout = e.shakeout) ∧
    (∀ (e : Expression) (qs : List Photo),
      qs.filter (fun p => e.shakeout.matchesPhoto p)
        = qs.filter (fun p => e.matchesPhoto p)) := by
  refine ⟨shakeout_idempotent, fun e qs => ?_⟩
  have hfun : (fun p => e.shakeout.matchesPhoto p)
      = (fun p => e.matchesPhoto p) :=
    funext (fun p => shakeout_matchesPhoto e p)
  rw [hfun]

theorem mem_of_mem_as_search (e : Expression) :
    ∀ (qs : List Photo) (u : User) (p : Photo),
      p ∈ e.as_search qs u → p ∈ qs := by
  induction e
  case Maximum l r ihl ihr =>
    intro qs u p hp
    simp only [Expression.as_search] at hp
    by_cases h : (l.as_search qs u).isEmpty
    · rw [if_pos h] at hp
      exact ihr qs u p hp
    · rw [if_neg h] at hp
      exact ihl qs u p hp
  all_goals intro qs u p hp
  all_goals exact (List.mem_filter.mp hp).1

theorem mem_of_mem_as_collection (e : Expression) (qs : List Photo) (u : User)
    (p : Photo) (hp : p ∈ e.as_collection qs u) : p ∈ qs :=
  (List.mem_filter.mp hp).1

theorem mem_of_mem_cq_filter (cq : CollectionQuery) (qs : List Photo)
    (p : Photo) (hp : p ∈ cq.filter qs) : p ∈ qs := by
  obtain ⟨oe, u⟩ := cq
  cases oe with
  | none => exact (List.mem_filter.mp hp).1
  | some e =>
    by_cases hc : e.is_collection = true
    · rw [show CollectionQuery.filter ⟨some e, u⟩ qs = e.as_collection qs u from
        by simp [CollectionQuery.filter, hc]] at hp
      exact mem_of_mem_as_collection e qs u p hp
    · rw [show CollectionQuery.filter ⟨some e, u⟩ qs = e.as_search qs u from
        by simp [CollectionQuery.filter, hc]] at hp
      exact mem_of_mem_as_search e qs u p hp

/-- C5: a `CollectionQuery` with no expression filters to published
photos with a non-null year (the match-everything default); with an
expression it dispatches to `as_collection` exactly when the expression
is a collection and to `as_search` otherwise; and null-year photos are
excluded from the filtered view produced by `filter_photos`. -/
theorem c5_collection_query_filter :
    (∀ (u : User) (qs : List Photo),
      (CollectionQuery.mk none u).filter qs
        = qs.filter (fun p => p.year.isSome && p.is_published)) ∧
    (∀ (e : Expression) (u : User) (qs : List Photo),
      (e.is_collection = true →
        (CollectionQuery.mk (some e) u).filter qs = e.as_collection qs u) ∧
      (e.is_collection = false →
        (CollectionQuery.mk (some e) u).filter qs = e.as_search qs u)) ∧
    (∀ (qs : List Photo) (cq : CollectionQuery) (p : Photo),
      p ∈ filter_photos qs cq → p.year.isSome ∧ p.is_published) := by
  refine ⟨fun u qs => rfl, fun e u qs => ⟨?_, ?_⟩, ?_⟩
  · intro h
    simp [CollectionQuery.filter, h]
  · intro h
    simp [CollectionQuery.filter, h]
  · intro qs cq p hp
    have hq : p ∈ qs.filter (fun r => r.year.isSome && r.is_published) :=
      mem_of_mem_cq_filter cq _ p hp
    have hpred := (List.mem_filter.mp hq).2
    simpa using hpred

/-- Witness for C5 at a concrete collection expression, a concrete
non-collection expression, and a concrete member of a filtered view. -/
theorem c5_witness :
    (CollectionQuery.mk (some (.Term "Farm")) anonUser).filter twoYearPhotos
      = (Expression.Term "Farm").as_collection twoYearPhotos anonUser ∧
    (CollectionQuery.mk (some (.Or (.Term "a") (.Term "b"))) anonUser).filter twoYearPhotos
      = (Expression.Or (.Term "a") (.Term "b")).as_search twoYearPhotos anonUser ∧
    ((mkSimplePhoto 1 1900).year.isSome ∧ (mkSimplePhoto 1 1900).is_published) :=
  ⟨(c5_collection_query_filter.2.1 (.Term "Farm") anonUser twoYearPhotos).1 (by decide),
   (c5_collection_query_filter.2.1 (.Or (.Term "a") (.Term "b")) anonUser
      twoYearPhotos).2 (by decide),
   c5_collection_query_filter.2.2 twoYearPhotos (CollectionQuery.mk none anonUser)
     (mkSimplePhoto 1 1900) (by decide)⟩

/-- C6: the search form attempts the full parse first; a `NoExpression`
failure contributes no filter; any other parse failure falls back to
`simple_parse`, which turns the entire raw input into the free-text
OR-expression across all fields instead of rejecting the request. -/
theorem c6_search_form_fallback :
    ∀ q : String,
      (∀ e, (Parser.tokenize q).parse = .ok e →
        queryExpression q = some e.shakeout) ∧
      ((Parser.tokenize q).parse = .error .NoExpression →
        queryExpression q = none) ∧
      (∀ err, (Parser.tokenize q).parse = .error err → err ≠ .NoExpression →
        queryExpression q = some (bareWordExpr q.trim.toList).shakeout) := by
  intro q
  refine ⟨?_, ?_, ?_⟩
  · intro e h
    simp [queryExpression, h]
  · intro h
    simp [queryExpression, h]
  · intro err h hne
    have htok : tokenizeStr q ≠ [] := by
      intro h0
      have hnil : (Parser.tokenize q).parse = .error .NoExpression := by
        show (Parser.mk q (tokenizeStr q)).parse = .error .NoExpression
        rw [h0]
        rfl
      rw [hnil] at h
      cases h
      exact hne rfl
    have hemp : (tokenizeStr q).isEmpty = false := by
      cases htokl : tokenizeStr q with
      | nil => exact absurd htokl htok
      | cons a l => rfl
    simp only [Parser.tokenize] at h
    cases err with
    | NoExpression => exact absurd rfl hne
    | UnexpectedParenthesis i =>
      simp [queryExpression, h, Parser.simple_parse, Parser.tokenize, hemp]
    | ExpectedParenthesis =>
      simp [queryExpression, h, Parser.simple_parse, Parser.tokenize, hemp]

theorem md5Chunk_lt (st : Nat × Nat × Nat × Nat) (M : List Nat) :
    (md5Chunk st M).1 < 4294967296 ∧ (md5Chunk st M).2.1 < 4294967296 ∧
    (md5Chunk st M).2.2.1 < 4294967296 ∧ (md5Chunk st M).2.2.2 < 4294967296 := by
  unfold md5Chunk
  obtain ⟨a, b, c, d⟩ := (List.range 64).foldl (md5Round M) st
  exact ⟨Nat.mod_lt _ (by decide), Nat.mod_lt _ (by decide),
    Nat.mod_lt _ (by decide), Nat.mod_lt _ (by decide)⟩

theorem foldl_md5Chunk_lt (l : List (List Nat)) (st : Nat × Nat × Nat × Nat)
    (h : st.1 < 4294967296 ∧ st.2.1 < 4294967296 ∧
      st.2.2.1 < 4294967296 ∧ st.2.2.2 < 4294967296) :
    (l.foldl md5Chunk st).1 < 4294967296 ∧
    (l.foldl md5Chunk st).2.1 < 4294967296 ∧
    (l.foldl md5Chunk st).2.2.1 < 4294967296 ∧
    (l.foldl md5Chunk st).2.2.2 < 4294967296 := by
  induction l generalizing st with
  | nil => exact h
  | cons c t ih => exact ih _ (md5Chunk_lt st c)

theorem md5Words_lt (s : String) :
    (md5Words s).1 < 4294967296 ∧ (md5Words s).2.1 < 4294967296 ∧
    (md5Words s).2.2.1 < 4294967296 ∧ (md5Words s).2.2.2 < 4294967296 := by
  unfold md5Words
  exact foldl_md5Chunk_lt _ _ (by decide)

theorem md5hex_congr {s t : String} (h : md5Words s = md5Words t) :
    md5hex s = md5hex t := by
  unfold md5hex
  rw [h]

set_option maxHeartbeats 1000000 in
/-- C8 counterexample: `cache_encoding` cannot be injective over
semantically distinct expressions — there are only finitely many md5
digests but infinitely many expressions with pairwise different
constructor arguments, so two distinct expressions share an encoding. -/
theorem c8_counterexample :
    ∃ (e₁ e₂ : Expression) (u : User), e₁ ≠ e₂ ∧
      (CollectionQuery.mk (some e₁) u).cache_encoding
        = (CollectionQuery.mk (some e₂) u).cache_encoding := by
  classical
  let f : ℕ → Fin 4294967296 × Fin 4294967296 × Fin 4294967296 × Fin 4294967296 :=
    fun n =>
      ⟨⟨(md5Words (exprRepr (.YearEquals (n : ℤ)))).1, (md5Words_lt _).1⟩,
       ⟨(md5Words (exprRepr (.YearEquals (n : ℤ)))).2.1, (md5Words_lt _).2.1⟩,
       ⟨(md5Words (exprRepr (.YearEquals (n : ℤ)))).2.2.1, (md5Words_lt _).2.2.1⟩,
       ⟨(md5Words (exprRepr (.YearEquals (n : ℤ)))).2.2.2, (md5Words_lt _).2.2.2⟩⟩
  obtain ⟨n, m, hnm, hfeq⟩ := Finite.exists_ne_map_eq_of_infinite f
  refine ⟨.YearEquals (n : ℤ), .YearEquals (m : ℤ), anonUser, ?_, ?_⟩
  · intro hc
    injection hc with h2
    exact hnm (Nat.cast_inj.mp h2)
  · show md5hex (optExprRepr (some (.YearEquals (n : ℤ))))
      = md5hex (optExprRepr (some (.YearEquals (m : ℤ))))
    apply md5hex_congr
    have h1 := congrArg (fun x => x.1.val) hfeq
    have h2 := congrArg (fun x => x.2.1.val) hfeq
    have h3 := congrArg (fun x => x.2.2.1.val) hfeq
    have h4 := congrArg (fun x => x.2.2.2.val) hfeq
    exact Prod.ext h1 (Prod.ext h2 (Prod.ext h3 h4))

set_option maxRecDepth 1000000 in
/-- C8 amended: `cache_encoding` is deterministic — two `CollectionQuery`
values holding structurally equal expressions yield the same key — and
concrete distinct expressions do receive distinct digests, but injectivity
cannot hold over all semantically distinct expressions (see the
counterexample: md5's digest space is finite). -/
theorem c8_cache_encoding_amended :
    (∀ cq₁ cq₂ : CollectionQuery, cq₁.expr = cq₂.expr →
      cq₁.cache_encoding = cq₂.cache_encoding) ∧
    (CollectionQuery.mk (some (.YearEquals 1912)) anonUser).cache_encoding
      ≠ (CollectionQuery.mk (some (.Caption "dog")) anonUser).cache_encoding := by
  constructor
  · intro cq₁ cq₂ h
    unfold CollectionQuery.cache_encoding CollectionQuery.make_key
    rw [h]
  · decide

/-- Witness for C8 amended: structurally equal expressions held by
different queries (even for different acting users) get the same key. -/
theorem c8_witness :
    (CollectionQuery.mk (some (.Term "Farm")) anonUser).cache_encoding
      = (CollectionQuery.mk (some (.Term "Farm")) ⟨1, true⟩).cache_encoding :=
  c8_cache_encoding_amended.1 _ _ rfl

/-- Witness for C6: the empty query contributes no filter, and a query
failing with `UnexpectedParenthesis` falls back to the free-text
expression over the whole raw input. -/
theorem c6_witness :
    queryExpression "" = none ∧
    queryExpression "caption:bird OR caption:dog) AND (-caption:cat OR caption:banana)"
      = some (bareWordExpr
          ("caption:bird OR caption:dog) AND (-caption:cat OR caption:banana)".trim.toList)).shakeout :=
  ⟨(c6_search_form_fallback "").2.1 (by decide),
   (c6_search_form_fallback _).2.2 (.UnexpectedParenthesis 3) (by decide) (by decide)⟩

theorem takeWhile_length_le {α} (p : α → Bool) :
    ∀ l : List α, (l.takeWhile p).length ≤ l.length := by
  intro l
  induction l with
  | nil => exact Nat.le_refl 0
  | cons a t ih =>
    cases hp : p a with
    | true => simpa [List.takeWhile, hp] using Nat.succ_le_succ ih
    | false => simp [List.takeWhile, hp]

theorem bisect_left_index_lt (x : Int) :
    ∀ (xs : List Int) (j : Nat), j < bisect_left xs x →
      ∀ v, xs[j]? = some v → v < x := by
  intro xs
  induction xs with
  | nil => intro j hj v hv; simp [bisect_left] at hj
  | cons a t ih =>
    intro j hj v hv
    cases hp : decide (a < x) with
    | false => simp [bisect_left, List.takeWhile, hp] at hj
    | true =>
      cases j with
      | zero =>
        simp at hv
        rw [← hv]
        exact of_decide_eq_true hp
      | succ k =>
        simp only [bisect_left, List.takeWhile, hp, List.length_cons] at hj
        exact ih k (Nat.lt_of_succ_lt_succ hj) v (by simpa using hv)

theorem bisect_left_get_ge (x : Int) :
    ∀ (xs : List Int) (v : Int), xs[bisect_left xs x]? = some v → x ≤ v := by
  intro xs
  induction xs with
  | nil => intro v hv; simp [bisect_left] at hv
  | cons a t ih =>
    intro v hv
    cases hp : decide (a < x) with
    | false =>
      simp only [bisect_left, List.takeWhile, hp, List.length_nil] at hv
      simp at hv
      rw [← hv]
      exact Int.not_lt.mp (of_decide_eq_false hp)
    | true =>
      simp only [bisect_left, List.takeWhile, hp, List.length_cons] at hv
      exact ih v (by simpa [bisect_left] using hv)

theorem bisect_left_eq_len_of_all_lt (x : Int) :
    ∀ xs : List Int, (∀ v ∈ xs, v < x) → bisect_left xs x = xs.length := by
  intro xs
  induction xs with
  | nil => intro _; rfl
  | cons a t ih =>
    intro h
    have hp : decide (a < x) = true :=
      decide_eq_true (h a (List.mem_cons_self a t))
    simp only [bisect_left, List.takeWhile, hp, List.length_cons]
    have := ih (fun v hv => h v (List.mem_cons_of_mem a hv))
    simpa [bisect_left] using this

theorem all_lt_of_bisect_left_eq_len (x : Int) :
    ∀ xs : List Int, bisect_left xs x = xs.length → ∀ v ∈ xs, v < x := by
  intro xs
  induction xs with
  | nil => intro _ v hv; cases hv
  | cons a t ih =>
    intro h v hv
    cases hp : decide (a < x) with
    | false =>
      simp [bisect_left, List.takeWhile, hp] at h
    | true =>
      simp only [bisect_left, List.takeWhile, hp, List.length_cons] at h
      rcases List.mem_cons.mp hv with hv | hv
      · rw [hv]; exact of_decide_eq_true hp
      · exact ih (by simpa [bisect_left] using h) v hv

theorem bisect_left_lt_len_of_exists (x : Int) (xs : List Int)
    (h : ∃ v ∈ xs, x ≤ v) : bisect_left xs x < xs.length := by
  obtain ⟨v, hv, hxv⟩ := h
  rcases Nat.lt_or_ge (bisect_left xs x) xs.length with hlt | hge
  · exact hlt
  · have heq : bisect_left xs x = xs.length :=
      Nat.le_antisymm (takeWhile_length_le _ xs) hge
    exact absurd (all_lt_of_bisect_left_eq_len x xs heq v hv) (Int.not_lt.mpr hxv)

theorem bisect_left_min (x : Int) (xs : List Int) (hs : xs.Sorted (· ≤ ·))
    (v : Int) (hv : v ∈ xs) (hxv : x ≤ v) :
    ∀ w, xs[bisect_left xs x]? = some w → w ≤ v := by
  intro w hw
  have hi : bisect_left xs x < xs.length :=
    bisect_left_lt_len_of_exists x xs ⟨v, hv, hxv⟩
  obtain ⟨j, hj, hjv⟩ := List.mem_iff_getElem.mp hv
  rcases Nat.lt_or_ge j (bisect_left xs x) with hlt | hge
  · have : xs[j] < x :=
      bisect_left_index_lt x xs j hlt xs[j] (List.getElem?_eq_getElem hj)
    rw [hjv] at this
    exact absurd this (Int.not_lt.mpr hxv)
  · have hweq : w = xs[bisect_left xs x] := by
      rw [List.getElem?_eq_getElem hi] at hw
      injection hw with hw'
      exact hw'.symm
    rcases Nat.eq_or_lt_of_le hge with heq | hlt
    · have h1 : xs[j]? = some w := heq ▸ hw
      rw [List.getElem?_eq_getElem hj, hjv] at h1
      injection h1 with h2
      exact le_of_eq h2.symm
    · have := hs.rel_get_of_lt (a := ⟨bisect_left xs x, hi⟩) (b := ⟨j, hj⟩) hlt
      rw [hweq, ← hjv]
      simpa using this

theorem minIdPhoto_mem : ∀ (t : List Photo) (h : Photo), minIdPhoto h t ∈ h :: t := by
  intro t
  induction t with
  | nil => intro h; exact List.mem_singleton.mpr rfl
  | cons q rest ih =>
    intro h
    show minIdPhoto (if q.id < h.id then q else h) rest ∈ h :: q :: rest
    have h1 := ih (if q.id < h.id then q else h)
    by_cases hq : q.id < h.id
    · rw [if_pos hq] at h1 ⊢
      exact List.mem_cons_of_mem h h1
    · rw [if_neg hq] at h1 ⊢
      rcases List.mem_cons.mp h1 with h2 | h2
      · rw [h2]; exact List.mem_cons_self h _
      · exact List.mem_cons_of_mem h (List.mem_cons_of_mem q h2)

theorem minIdPhoto_year (y : Int) :
    ∀ (t : List Photo) (h : Photo), h.year = some y →
      (∀ q ∈ t, q.year = some y) → (minIdPhoto h t).year = some y := by
  intro t
  induction t with
  | nil => intro h hh _; exact hh
  | cons q rest ih =>
    intro h hh hq
    show (minIdPhoto (if q.id < h.id then q else h) rest).year = some y
    have hhead : (if q.id < h.id then q else h).year = some y := by
      by_cases hc : q.id < h.id
      · rw [if_pos hc]; exact hq q (List.mem_cons_self q rest)
      · rw [if_neg hc]; exact hh
    exact ih _ hhead (fun r hr => hq r (List.mem_cons_of_mem q hr))

theorem minIdForYear_spec (ps : List Photo) (y : Int) (r : Photo)
    (h : minIdForYear ps y = some r) : r.year = some y ∧ r ∈ ps := by
  unfold minIdForYear at h
  cases hpy : photosOfYear ps y with
  | nil => rw [hpy] at h; cases h
  | cons a t =>
    rw [hpy] at h
    have hr : r = minIdPhoto a t := by
      injection h with h'
      exact h'.symm
    have hall : ∀ q ∈ a :: t, q.year = some y ∧ q ∈ ps := by
      intro q hq
      have : q ∈ photosOfYear ps y := hpy ▸ hq
      have hf := List.mem_filter.mp this
      exact ⟨by simpa using hf.2, hf.1⟩
    constructor
    · rw [hr]
      exact minIdPhoto_year y t a (hall a (List.mem_cons_self a t)).1
        (fun q hq => (hall q (List.mem_cons_of_mem a hq)).1)
    · rw [hr]
      exact (hall _ (minIdPhoto_mem t a)).2

theorem minIdForYear_isSome (ps : List Photo) (y : Int)
    (h : y ∈ yearValues ps) : ∃ r, minIdForYear ps y = some r := by
  obtain ⟨p, hp, hpy⟩ := List.mem_filterMap.mp h
  have hmem : p ∈ photosOfYear ps y :=
    List.mem_filter.mpr ⟨hp, by simp [hpy]⟩
  unfold minIdForYear
  cases hpy2 : photosOfYear ps y with
  | nil => rw [hpy2] at hmem; cases hmem
  | cons a t => exact ⟨minIdPhoto a t, rfl⟩

theorem mem_yearsSorted_iff (ps : List Photo) (y : Int) :
    y ∈ yearsSorted ps ↔ y ∈ yearValues ps := by
  unfold yearsSorted
  rw [(List.perm_insertionSort (· ≤ ·) (yearValues ps).dedup).mem_iff]
  exact List.mem_dedup

theorem yearsSorted_sorted (ps : List Photo) :
    (yearsSorted ps).Sorted (· ≤ ·) :=
  List.sorted_insertionSort (· ≤ ·) _

theorem filterMap_total_get {α β : Type} (f : α → Option β) :
    ∀ l : List α, (∀ a ∈ l, ∃ b, f a = some b) →
      (l.filterMap f).length = l.length ∧
      ∀ (j : Nat) (a : α), l[j]? = some a →
        ∃ b, (l.filterMap f)[j]? = some b ∧ f a = some b := by
  intro l
  induction l with
  | nil =>
    intro _
    exact ⟨rfl, by intro j a h; simp at h⟩
  | cons hd t ih =>
    intro h
    obtain ⟨b, hb⟩ := h hd (List.mem_cons_self hd t)
    have hrest := ih (fun a ha => h a (List.mem_cons_of_mem hd ha))
    rw [List.filterMap_cons_some hb]
    refine ⟨by simpa using hrest.1, ?_⟩
    intro j a hj
    cases j with
    | zero =>
      simp at hj
      exact ⟨b, by simp, hj ▸ hb⟩
    | succ k =>
      simp only [List.getElem?_cons_succ] at hj ⊢
      exact hrest.2 k a hj

theorem yearsSorted_total (ps : List Photo) :
    ∀ y ∈ yearsSorted ps, ∃ r, minIdForYear ps y = some r :=
  fun y hy => minIdForYear_isSome ps y ((mem_yearsSorted_iff ps y).mp hy)

theorem year_index_length (ps : List Photo) :
    (year_index ps).length = (yearsSorted ps).length :=
  (filterMap_total_get (minIdForYear ps) (yearsSorted ps) (yearsSorted_total ps)).1

theorem year_index_get (ps : List Photo) (j : Nat) (y : Int)
    (h : (yearsSorted ps)[j]? = some y) :
    ∃ r, (year_index ps)[j]? = some r ∧ r.year = some y ∧ r ∈ ps := by
  obtain ⟨r, hr, hf⟩ :=
    (filterMap_total_get (minIdForYear ps) (yearsSorted ps)
      (yearsSorted_total ps)).2 j y h
  obtain ⟨hy, hmem⟩ := minIdForYear_spec ps y r hf
  exact ⟨r, hr, hy, hmem⟩

theorem year_index_years (ps : List Photo) :
    (year_index ps).filterMap (fun p => p.year) = yearsSorted ps := by
  unfold year_index
  have : ∀ l : List Int, (∀ y ∈ l, ∃ r, minIdForYear ps y = some r ∧ r.year = some y) →
      (l.filterMap (minIdForYear ps)).filterMap (fun p => p.year) = l := by
    intro l
    induction l with
    | nil => intro _; rfl
    | cons y t ih =>
      intro h
      obtain ⟨r, hr, hy⟩ := h y (List.mem_cons_self y t)
      rw [List.filterMap_cons_some hr, List.filterMap_cons_some hy]
      rw [ih (fun v hv => h v (List.mem_cons_of_mem y hv))]
  refine this (yearsSorted ps) (fun y hy => ?_)
  obtain ⟨r, hr⟩ := yearsSorted_total ps y hy
  exact ⟨r, hr, (minIdForYear_spec ps y r hr).1⟩

/-- C2 counterexample: with photos only in 1900 and 1905, `year_links`
pairs the gap year 1903 with the representative of 1905 — the nearest
representative at-or-after the year — not with the 1900 representative
that a floor / nearest-less-or-equal lookup would choose, even though a
representative of year at most 1903 exists. -/
theorem c2_counterexample :
    (year_links twoYearPhotos twoYearPhotos)[3]?
        = some (1903, some (mkSimplePhoto 2 1905)) ∧
    (mkSimplePhoto 2 1905).year = some 1905 ∧ ¬((1905 : Int) ≤ 1903) ∧
    mkSimplePhoto 1 1900 ∈ year_index twoYearPhotos ∧
    (mkSimplePhoto 1 1900).year = some 1900 ∧ ((1900 : Int) ≤ 1903) := by
  refine ⟨by decide, by decide, by decide, by decide, by decide, by decide⟩

/-- C2 amended: for a photo set with a non-empty `year_index`,
`year_links` associates every integer year from the global minimum to the
global maximum (inclusive, including years with zero photos) with a
representative chosen by a nearest-greater-or-equal (`bisect_left`)
lookup over the sorted representative years, clamped to the last
representative when the year exceeds them all — never indexing out of
bounds. -/
theorem c2_year_links_amended :
    ∀ (self allPhotos : List Photo) (s e : Int),
      year_rangeStart allPhotos = some s → year_rangeEnd allPhotos = some e →
      year_index self ≠ [] →
      ((year_links self allPhotos).map Prod.fst = intRange s e) ∧
      (∀ y rep, (y, rep) ∈ year_links self allPhotos →
        ∃ r, rep = some r ∧ r ∈ year_index self ∧
          ∃ yr, r.year = some yr ∧
            ((∃ v ∈ yearsSorted self, y ≤ v) →
              y ≤ yr ∧ ∀ v ∈ yearsSorted self, y ≤ v → yr ≤ v) ∧
            ((∀ v ∈ yearsSorted self, v < y) →
              (year_index self)[(year_index self).length - 1]? = some r)) := by
  intro self allPhotos s e hs he hne
  have hlinks : year_links self allPhotos =
      (intRange s e).map (fun y =>
        (y, (year_index self)[bisect (yearsSorted self) y]?)) := by
    simp only [year_links, hs, he, year_index_years]
  have hlen : (year_index self).length = (yearsSorted self).length :=
    year_index_length self
  have ysne : yearsSorted self ≠ [] := by
    intro h0
    apply hne
    unfold year_index
    rw [h0]
    rfl
  constructor
  · have hid : (Prod.fst ∘ fun y =>
        (y, (year_index self)[bisect (yearsSorted self) y]?)) = id :=
      funext (fun y => rfl)
    rw [hlinks, List.map_map, hid, List.map_id]
  · intro y rep hmem
    rw [hlinks] at hmem
    obtain ⟨y', _, hpair⟩ := List.mem_map.mp hmem
    have hy : y' = y := congrArg Prod.fst hpair
    subst hy
    have hrep : rep = (year_index self)[bisect (yearsSorted self) y']? :=
      (congrArg Prod.snd hpair).symm
    have hi : bisect (yearsSorted self) y' < (yearsSorted self).length := by
      unfold bisect
      exact Nat.lt_of_le_of_lt (Nat.min_le_right _ _)
        (Nat.sub_lt (List.length_pos.mpr ysne) Nat.one_pos)
    have hys : (yearsSorted self)[bisect (yearsSorted self) y']?
        = some (yearsSorted self)[bisect (yearsSorted self) y'] :=
      List.getElem?_eq_getElem hi
    obtain ⟨r, hr, hryear, _⟩ := year_index_get self _ _ hys
    refine ⟨r, by rw [hrep, hr], List.getElem?_mem hr,
      (yearsSorted self)[bisect (yearsSorted self) y'], hryear, ?_, ?_⟩
    · intro hex
      have hbl : bisect_left (yearsSorted self) y' < (yearsSorted self).length :=
        bisect_left_lt_len_of_exists y' _ hex
      have hb : bisect (yearsSorted self) y' = bisect_left (yearsSorted self) y' := by
        unfold bisect
        exact Nat.min_eq_left (Nat.le_pred_of_lt hbl)
      constructor
      · apply bisect_left_get_ge y' (yearsSorted self)
        rw [← hb]
        exact hys
      · intro v hv hle
        apply bisect_left_min y' (yearsSorted self) (yearsSorted_sorted self) v hv hle
        rw [← hb]
        exact hys
    · intro hall
      have hbl : bisect_left (yearsSorted self) y' = (yearsSorted self).length :=
        bisect_left_eq_len_of_all_lt y' _ hall
      have hb : bisect (yearsSorted self) y' = (yearsSorted self).length - 1 := by
        unfold bisect
        rw [hbl]
        exact Nat.min_eq_right (Nat.sub_le _ _)
      rw [← hr, hlen, ← hb]

/-- Witness for C2 amended at the two concrete photos of 1900 and 1905:
the link domain is exactly the years 1900 through 1905. -/
theorem c2_witness :
    (year_links twoYearPhotos twoYearPhotos).map Prod.fst = intRange 1900 1905 :=
  (c2_year_links_amended twoYearPhotos twoYearPhotos 1900 1905
    (by decide) (by decide) (by decide)).1

/-- Witness for C10 amended at a concrete non-empty queryset. -/
theorem c10_witness :
    page_number ⟨mkSimplePhoto 2 1905, none, none⟩ (some twoYearPhotos) =
      (some (photo_position twoYearPhotos (mkSimplePhoto 2 1905) / 10 + 1),
       ⟨mkSimplePhoto 2 1905, none,
        some (photo_position twoYearPhotos (mkSimplePhoto 2 1905))⟩) :=
  (c10_page_number_amended ⟨mkSimplePhoto 2 1905, none, none⟩
      (some twoYearPhotos)).2.1 rfl twoYearPhotos rfl (by decide)

end Kronofoto
